import Mathlib

/-!
HellfireOS kernel entry (`sys/kernel/main.c`): aperiodic dispatcher and boot.

A shallow embedding of `clear_tcb`, `init_queues`, one iteration of the loop of
`escalonadorAperiodico`, and the boot sequence of `main`.

Conventions of the embedding.

* The TCB pool `krnl_tcb` is a list of descriptors; a pointer `&krnl_tcb[i]` is the
  index `i`, and `NULL` is `none`.
* The kernel headers (`kernel.h`, `queue.h`, `panic.h`, `task.h`) are not part of
  the sources at hand.  `MAX_TASKS` and `STACK_MAGIC` are therefore parameters
  (`KernelConfig`), the numeric TCB fields are mathematical integers, and the
  queue primitives follow the contract written in the specification.
* `panic` halts the kernel: an iteration that panics ends there, with the state
  it had reached.
-/

namespace Hellfire

/-- Constants of `kernel.h` that `main.c` uses. -/
structure KernelConfig where
  MAX_TASKS : Nat
  STACK_MAGIC : Nat
  deriving DecidableEq, Repr

/-- Task states named in `main.c`. -/
inductive TaskState where
  | TASK_IDLE
  | TASK_READY
  | TASK_RUNNING
  deriving DecidableEq, Repr

/-- Panic causes named in `main.c`. -/
inductive PanicCode where
  | PANIC_OOM
  | PANIC_STACK_OVERFLOW
  | PANIC_CANT_PLACE_RUN
  | PANIC_ABORTED
  | PANIC_GPF
  deriving DecidableEq, Repr

/-- Task entry routines defined in `main.c`. -/
inductive TaskEntry where
  | idletask
  | escalonadorAperiodico
  deriving DecidableEq, Repr

/-- One slot of `krnl_tcb`, with the fields `clear_tcb` and the dispatcher touch.
`name` is the byte array, `pstack` the words of the stack region (`none` for
`NULL`), `task_context` the continuation last saved by `setjmp`. -/
structure TCB where
  id : Int
  name : List Nat
  state : TaskState
  priority : Int
  priority_rem : Int
  delay : Int
  rtjobs : Int
  bgjobs : Int
  deadline_misses : Int
  period : Int
  capacity : Int
  deadline : Int
  capacity_rem : Int
  deadline_rem : Int
  task_context : Nat
  ptask : Option TaskEntry
  pstack : Option (List Nat)
  stack_size : Int
  other_data : Int
  deriving DecidableEq, Repr

/-- Modelled from the spec: the bounded queue of `queue.h` (section 4.1), a FIFO
of TCB references (`items`, oldest first) created for `size` entries. -/
structure Queue where
  size : Nat
  items : List Nat
  deriving DecidableEq, Repr

/-- Modelled from the spec: `count()` returns current occupancy. -/
def hf_queue_count (q : Queue) : Nat := q.items.length

/-- Modelled from the spec: `add_tail(ref)` appends; it fails (`none`, the
non-zero return of the C function) if the queue is already at capacity. -/
def hf_queue_addtail (q : Queue) (r : Nat) : Option Queue :=
  if q.items.length < q.size then some { q with items := q.items ++ [r] } else none

/-- Modelled from the spec: `remove_head()` removes and returns the oldest entry;
it fails (`none`, the `NULL` return) on an empty queue, which it leaves as it is. -/
def hf_queue_remhead (q : Queue) : Option (Nat × Queue) :=
  match q.items with
  | [] => none
  | r :: rest => some (r, { q with items := rest })

/-- Modelled from the spec: `create(capacity)` allocates backing storage sized to
`capacity` and fails when storage cannot be obtained; `ok` is the allocator's
answer for this request. -/
def hf_queue_create (ok : Bool) (capacity : Nat) : Option Queue :=
  if ok then some { size := capacity, items := [] } else none

/-- The kernel globals `main.c` reads and writes. `irq` is the interrupt-enable
status that `_di` and `_ei` exchange. -/
structure Kernel where
  krnl_tcb : List TCB
  krnl_task : Option Nat
  krnl_tasks : Int
  krnl_current_task : Int
  krnl_schedule : Int
  krnl_run_queue : Option Queue
  krnl_delay_queue : Option Queue
  krnl_rt_queue : Option Queue
  krnl_tarefas_aper : Option Queue
  irq : Bool
  deriving DecidableEq, Repr

/-- The slot `krnl_tcb[i]` for a C index `i`; `none` outside the array. -/
def tcbAt (pool : List TCB) (i : Int) : Option TCB :=
  if 0 ≤ i then pool[i.toNat]? else none

/-! ## `clear_tcb` -/

/-- The body of the `for` loop of `clear_tcb` applied to one slot: every
assignment of lines 51 to 68 (`task_context` is not assigned). -/
def clear_slot (t : TCB) : TCB :=
  { t with
    id := -1
    name := List.replicate t.name.length 0
    state := TaskState.TASK_IDLE
    priority := 0
    priority_rem := 0
    delay := 0
    rtjobs := 0
    bgjobs := 0
    deadline_misses := 0
    period := 0
    capacity := 0
    deadline := 0
    capacity_rem := 0
    deadline_rem := 0
    ptask := none
    pstack := none
    stack_size := 0
    other_data := 0 }

/-- The loop `for (i = 0; i < MAX_TASKS; i++)` of `clear_tcb` from counter value
`i`, with `i` a `uint16_t` (the increment wraps at 65536). `fuel` bounds the
number of passes; `none` means the fuel ran out or a slot outside the pool was
addressed. -/
def clear_tcb_loop (cfg : KernelConfig) : Nat → Nat → Kernel → Option Kernel
  | fuel, i, k =>
    if i < cfg.MAX_TASKS then
      match fuel with
      | 0 => none
      | fuel + 1 =>
        match k.krnl_tcb[i]? with
        | none => none
        | some t =>
          clear_tcb_loop cfg fuel ((i + 1) % 65536)
            { k with krnl_task := some i, krnl_tcb := k.krnl_tcb.set i (clear_slot t) }
    else some k

/-- The function `clear_tcb`: the loop, then the three counters reset. -/
def clear_tcb (cfg : KernelConfig) (fuel : Nat) (k : Kernel) : Option Kernel :=
  match clear_tcb_loop cfg fuel 0 k with
  | none => none
  | some k1 => some { k1 with krnl_tasks := 0, krnl_current_task := 0, krnl_schedule := 0 }

/-- What the reset law asks of one slot. -/
def SlotCleared (t : TCB) : Prop :=
  t.id = -1 ∧ t.state = TaskState.TASK_IDLE ∧ (∀ b ∈ t.name, b = 0) ∧
  t.priority = 0 ∧ t.priority_rem = 0 ∧ t.delay = 0 ∧ t.rtjobs = 0 ∧ t.bgjobs = 0 ∧
  t.deadline_misses = 0 ∧ t.period = 0 ∧ t.capacity = 0 ∧ t.deadline = 0 ∧
  t.capacity_rem = 0 ∧ t.deadline_rem = 0 ∧ t.stack_size = 0

/-! ## `init_queues` -/

/-- How a boot routine ends: it returns, or it calls `panic` and the kernel halts. -/
inductive BootOutcome where
  | returned (k : Kernel)
  | panicked (code : PanicCode) (k : Kernel)
  deriving DecidableEq, Repr

/-- The function `init_queues`. `alloc n` is the allocator's answer to the `n`-th
call of `hf_queue_create` (0 for the run queue, then delay, real-time, aperiodic). -/
def init_queues (cfg : KernelConfig) (alloc : Nat → Bool) (k : Kernel) : BootOutcome :=
  let k1 : Kernel := { k with krnl_run_queue := hf_queue_create (alloc 0) cfg.MAX_TASKS }
  if k1.krnl_run_queue = none then BootOutcome.panicked PanicCode.PANIC_OOM k1
  else
    let k2 : Kernel := { k1 with krnl_delay_queue := hf_queue_create (alloc 1) cfg.MAX_TASKS }
    if k2.krnl_delay_queue = none then BootOutcome.panicked PanicCode.PANIC_OOM k2
    else
      let k3 : Kernel := { k2 with krnl_rt_queue := hf_queue_create (alloc 2) cfg.MAX_TASKS }
      if k3.krnl_rt_queue = none then BootOutcome.panicked PanicCode.PANIC_OOM k3
      else
        let k4 : Kernel :=
          { k3 with krnl_tarefas_aper := hf_queue_create (alloc 3) cfg.MAX_TASKS }
        if k4.krnl_tarefas_aper = none then BootOutcome.panicked PanicCode.PANIC_OOM k4
        else BootOutcome.returned k4

/-! ## `escalonadorAperiodico` -/

/-- How one pass through the body of the `for (;;)` of `escalonadorAperiodico`
ends: `resumed` is the `continue` after a non-zero `setjmp`, `dispatched` a pass
that dequeued a job and fell through to the loop top, `yielded` the pass of the
empty queue (`hf_yield()` was called), `panicked` a call of `panic`, `undefined`
a dereference of `NULL` or of a slot outside the pool. -/
inductive Outcome where
  | resumed (k : Kernel)
  | dispatched (k : Kernel)
  | yielded (k : Kernel)
  | panicked (code : PanicCode) (k : Kernel)
  | undefined
  deriving DecidableEq, Repr

/-- Lines 135 to 139 of a pass whose current TCB is `t`:
`status = _di(); krnl_task = &krnl_tcb[krnl_current_task];
rc = setjmp(krnl_task->task_context);` with `ctx` the continuation stored. -/
def savedKernel (ctx : Nat) (k : Kernel) (t : TCB) : Kernel :=
  { k with
    irq := false
    krnl_task := some k.krnl_current_task.toNat
    krnl_tcb := k.krnl_tcb.set k.krnl_current_task.toNat { t with task_context := ctx } }

/-- Lines 154 and 155, after `savedKernel`:
`if (krnl_task->state == TASK_RUNNING) krnl_task->state = TASK_READY;`. -/
def demotedKernel (ctx : Nat) (k : Kernel) (t : TCB) : Kernel :=
  if t.state = TaskState.TASK_RUNNING then
    { savedKernel ctx k t with
      krnl_tcb := (savedKernel ctx k t).krnl_tcb.set k.krnl_current_task.toNat
        { t with task_context := ctx, state := TaskState.TASK_READY } }
  else savedKernel ctx k t

/-- Lines 168 and 171 on the dequeued TCB: `krnl_task->state = TASK_RUNNING;
krnl_task->capacity = (krnl_task->capacity) - 1;`. -/
def runningTcb (t : TCB) : TCB :=
  { t with state := TaskState.TASK_RUNNING, capacity := t.capacity - 1 }

/-- Lines 163 to 171, for the dequeued reference `r` whose TCB is `t` and the queue
`q1` left by `hf_queue_remhead`: `krnl_task` and `krnl_current_task =
krnl_task->id` are set and the TCB is updated in its slot. -/
def dequeuedKernel (k3 : Kernel) (r : Nat) (t : TCB) (q1 : Queue) : Kernel :=
  { k3 with
    krnl_task := some r
    krnl_current_task := t.id
    krnl_tarefas_aper := some q1
    krnl_tcb := k3.krnl_tcb.set r (runningTcb t) }

/-- Lines 160 to 192: the test of the aperiodic queue and its two branches.
`status` is the local saved by `_di()`. -/
def dispatchOrYield (status : Bool) (k3 : Kernel) : Outcome :=
  match k3.krnl_tarefas_aper with
  | none => Outcome.undefined
  | some q =>
    if hf_queue_count q > 0 then
      -- krnl_task = hf_queue_remhead(krnl_tarefas_aper);
      match hf_queue_remhead q with
      | none => Outcome.undefined
      | some (r, q1) =>
        match k3.krnl_tcb[r]? with
        | none => Outcome.undefined
        | some t =>
          let k4 := dequeuedKernel k3 r t q1
          -- if (krnl_task->capacity > 0)
          if (runningTcb t).capacity > 0 then
            -- if (hf_queue_addtail(krnl_tarefas_aper, krnl_task)) panic(PANIC_CANT_PLACE_RUN);
            match hf_queue_addtail q1 r with
            | none => Outcome.panicked PanicCode.PANIC_CANT_PLACE_RUN k4
            | some q2 => Outcome.dispatched { k4 with krnl_tarefas_aper := some q2 }
          else
            -- hf_queue_remhead(krnl_tarefas_aper); the returned reference is dropped
            match hf_queue_remhead q1 with
            | none => Outcome.dispatched k4
            | some (_, q2) => Outcome.dispatched { k4 with krnl_tarefas_aper := some q2 }
    else
      -- _ei(status); hf_yield();
      Outcome.yielded { k3 with irq := status }

/-- One pass through the loop body of `escalonadorAperiodico` (lines 135 to 192).
`rc` is the value `setjmp` hands back (zero when the context is captured, non-zero
when the pass is re-entered through it) and `ctx` the continuation it stores. -/
def escalonadorAperiodico_iter (cfg : KernelConfig) (rc : Int) (ctx : Nat) (k : Kernel) :
    Outcome :=
  match tcbAt k.krnl_tcb k.krnl_current_task with
  | none => Outcome.undefined
  | some t0 =>
    if rc ≠ 0 then
      -- _ei(status); continue;
      Outcome.resumed { savedKernel ctx k t0 with irq := k.irq }
    else
      -- if (krnl_task->pstack[0] != STACK_MAGIC) panic(PANIC_STACK_OVERFLOW);
      match t0.pstack with
      | none => Outcome.undefined
      | some stack =>
        match stack.head? with
        | none => Outcome.undefined
        | some w =>
          if w ≠ cfg.STACK_MAGIC then
            Outcome.panicked PanicCode.PANIC_STACK_OVERFLOW (savedKernel ctx k t0)
          else dispatchOrYield k.irq (demotedKernel ctx k t0)

/-- The loop of `escalonadorAperiodico` run on fresh passes (`setjmp` returning 0)
with nothing else touching the kernel state: it stops at the first pass that does
not dispatch (a yield, a panic), or when `fuel` passes were made. The result is
the list of the jobs dequeued and marked `TASK_RUNNING`, in order, and how the
last pass ended (`none` when the fuel ran out first). -/
def escalonadorAperiodico_run (cfg : KernelConfig) (ctx : Nat) :
    Nat → Kernel → List Nat × Option Outcome
  | 0, _ => ([], none)
  | fuel + 1, k =>
    match escalonadorAperiodico_iter cfg 0 ctx k with
    | Outcome.dispatched k1 =>
      ((k1.krnl_task.getD 0) :: (escalonadorAperiodico_run cfg ctx fuel k1).1,
        (escalonadorAperiodico_run cfg ctx fuel k1).2)
    | o => ([], some o)

/-- The aperiodic queue's entries; empty when the queue was never created. -/
def aperItems (k : Kernel) : List Nat :=
  match k.krnl_tarefas_aper with
  | none => []
  | some q => q.items

/-- The field `capacity` of slot `r`, zero outside the pool. -/
def capacityOf (pool : List TCB) (r : Nat) : Int :=
  match pool[r]? with
  | none => 0
  | some t => t.capacity

/-- Total remaining job count of the queued aperiodic jobs. -/
def totalRemaining (k : Kernel) : Int :=
  ((aperItems k).map (capacityOf k.krnl_tcb)).sum

/-- The guard word `pstack[0]` of the slot `krnl_tcb[i]` holds `STACK_MAGIC`. -/
def GuardOk (cfg : KernelConfig) (pool : List TCB) (i : Int) : Prop :=
  ∃ t stack, tcbAt pool i = some t ∧ t.pstack = some stack ∧
    stack.head? = some cfg.STACK_MAGIC

/-- The current task's guard word `pstack[0]` holds `STACK_MAGIC`. -/
def CanaryOk (cfg : KernelConfig) (k : Kernel) : Prop :=
  GuardOk cfg k.krnl_tcb k.krnl_current_task

/-- The reference `r` is a live aperiodic job: it points at a slot of the pool,
that TCB has at least one job left, and the slot its `id` names (the one that
becomes `krnl_current_task` when the job is dispatched) has an intact guard word. -/
def JobOk (cfg : KernelConfig) (pool : List TCB) (r : Nat) : Prop :=
  ∃ t, pool[r]? = some t ∧ 1 ≤ t.capacity ∧ GuardOk cfg pool t.id

/-- Well-formed dispatcher state: the aperiodic queue exists, its count is within
its capacity, no TCB is queued twice, every queued reference is a live job, and
the current task's guard word is intact. -/
def DispatchReady (cfg : KernelConfig) (k : Kernel) : Prop :=
  ∃ q, k.krnl_tarefas_aper = some q ∧ q.items.length ≤ q.size ∧ q.items.Nodup ∧
    (∀ r ∈ q.items, JobOk cfg k.krnl_tcb r) ∧ CanaryOk cfg k

/-- A run of consecutive fresh passes that all dispatch: `DispatchChain cfg ctx k tr k2`
says that from `k` the passes dequeue the jobs `tr`, in order, and leave `k2`. -/
inductive DispatchChain (cfg : KernelConfig) (ctx : Nat) : Kernel → List Nat → Kernel → Prop
  | done (k : Kernel) : DispatchChain cfg ctx k [] k
  | pass (k k1 k2 : Kernel) (r : Nat) (tr : List Nat) :
      escalonadorAperiodico_iter cfg 0 ctx k = Outcome.dispatched k1 →
      k1.krnl_task = some r →
      DispatchChain cfg ctx k1 tr k2 →
      DispatchChain cfg ctx k (r :: tr) k2

/-- What lines 139 to 155 make of the current TCB: the continuation saved and
`TASK_RUNNING` turned into `TASK_READY`. -/
def demoteTcb (ctx : Nat) (t : TCB) : TCB :=
  { t with
    task_context := ctx
    state := if t.state = TaskState.TASK_RUNNING then TaskState.TASK_READY else t.state }

/-- The kernel state an outcome ends in, if any. -/
def Outcome.kernel : Outcome → Option Kernel
  | Outcome.resumed k => some k
  | Outcome.dispatched k => some k
  | Outcome.yielded k => some k
  | Outcome.panicked _ k => some k
  | Outcome.undefined => none

/-- The panic code an outcome carries, if it is a panic. -/
def Outcome.panicCode : Outcome → Option PanicCode
  | Outcome.panicked code _ => some code
  | _ => none

/-- The kernel state after one fresh pass from `k` (`k` itself when the pass is
undefined). -/
def passFrom (cfg : KernelConfig) (ctx : Nat) (k : Kernel) : Kernel :=
  ((escalonadorAperiodico_iter cfg 0 ctx k).kernel).getD k

/-! ## `main` -/

/-- The arguments of a call `hf_spawn(task, period, capacity, deadline, name,
stack_size)`; the three numbers after the entry routine are the period, the
capacity and the deadline, in the order the interface section of the
specification lists them. -/
structure SpawnCall where
  task : TaskEntry
  period : Int
  capacity : Int
  deadline : Int
  name : String
  stack_size : Int
  deriving DecidableEq, Repr

/-- The calls `main` makes, in order (console output left out). -/
inductive BootStep where
  | hardware_init
  | hf_schedlock (v : Int)
  | di
  | print_config
  | vm_init
  | clear_tcb
  | clear_pcb
  | init_queues
  | sched_init
  | irq_init
  | timer_init
  | timer_reset
  | hf_spawn (c : SpawnCall)
  | device_init
  | task_init
  | app_main
  | restoreexec
  | panic (code : PanicCode)
  deriving DecidableEq, Repr

/-- The function `main`, as the sequence of calls it makes for a given value of the
static `oops`. -/
def main (oops : Nat) : List BootStep :=
  [BootStep.hardware_init, BootStep.hf_schedlock 1, BootStep.di] ++
  (if oops = 0xbaadd00d then
    [BootStep.print_config, BootStep.vm_init, BootStep.clear_tcb, BootStep.clear_pcb,
     BootStep.init_queues, BootStep.sched_init, BootStep.irq_init, BootStep.timer_init,
     BootStep.timer_reset,
     BootStep.hf_spawn
       { task := TaskEntry.escalonadorAperiodico, period := 10, capacity := 1, deadline := 10,
         name := "Aperiodic task", stack_size := 1024 },
     BootStep.device_init, BootStep.task_init, BootStep.app_main, BootStep.restoreexec,
     BootStep.panic PanicCode.PANIC_ABORTED]
  else [BootStep.panic PanicCode.PANIC_GPF])

/-- The `hf_spawn` calls among a sequence of boot calls. -/
def spawnCalls : List BootStep → List SpawnCall
  | [] => []
  | BootStep.hf_spawn c :: rest => c :: spawnCalls rest
  | _ :: rest => spawnCalls rest

/-- The queue a spawned task is placed on. -/
inductive SpawnQueue where
  | run_queue
  | rt_queue
  deriving DecidableEq, Repr

/-- Modelled from the spec: `hf_spawn` of `task.h` (section 4.2) enqueues the new
task into the run queue, or into the real-time queue if it is periodic, that is
if it was given a period. -/
def hf_spawn_queue (c : SpawnCall) : SpawnQueue :=
  if c.period ≠ 0 then SpawnQueue.rt_queue else SpawnQueue.run_queue

/-! ## A worked pool -/

/-- A live TCB with the given index, one-letter name and job count. -/
def mkJob (cfg : KernelConfig) (i : Nat) (letter : Nat) (jobs : Int) : TCB :=
  { id := (i : Int), name := [letter], state := TaskState.TASK_READY, priority := 0,
    priority_rem := 0, delay := 0, rtjobs := 0, bgjobs := 0, deadline_misses := 0,
    period := 0, capacity := jobs, deadline := 0, capacity_rem := 0, deadline_rem := 0,
    task_context := 0, ptask := none, pstack := some [cfg.STACK_MAGIC, 0],
    stack_size := 8, other_data := 0 }

/-- A concrete configuration: four slots. -/
def cfg4 : KernelConfig := { MAX_TASKS := 4, STACK_MAGIC := 0xb00bb00b }

/-- A kernel with the given pool and aperiodic queue entries, slot 0 current. -/
def mkKernel (cfg : KernelConfig) (pool : List TCB) (items : List Nat) : Kernel :=
  { krnl_tcb := pool, krnl_task := none, krnl_tasks := 0, krnl_current_task := 0,
    krnl_schedule := 0,
    krnl_run_queue := some { size := cfg.MAX_TASKS, items := [] },
    krnl_delay_queue := some { size := cfg.MAX_TASKS, items := [] },
    krnl_rt_queue := some { size := cfg.MAX_TASKS, items := [] },
    krnl_tarefas_aper := some { size := cfg.MAX_TASKS, items := items }, irq := true }

/-- The dispatcher's own TCB, in slot 0 and running. -/
def dispatcherTcb (cfg : KernelConfig) : TCB :=
  { mkJob cfg 0 68 0 with
    state := TaskState.TASK_RUNNING
    ptask := some TaskEntry.escalonadorAperiodico }

/-- The dispatcher in slot 0 and jobs A (2 jobs), B (1 job), C (3 jobs) in slots 1
to 3, queued in that order. -/
def kernelABC : Kernel :=
  mkKernel cfg4 [dispatcherTcb cfg4, mkJob cfg4 1 65 2, mkJob cfg4 2 66 1, mkJob cfg4 3 67 3]
    [1, 2, 3]

/-- The dispatcher in slot 0 and jobs A (1 job), B (1 job) in slots 1 and 2, queued
in that order; slot 3 is unused. -/
def kernelAB : Kernel :=
  mkKernel cfg4 [dispatcherTcb cfg4, mkJob cfg4 1 65 1, mkJob cfg4 2 66 1, mkJob cfg4 3 67 0]
    [1, 2]

/-- As `kernelABC`, with the guard word of the dispatcher's stack overwritten. -/
def kernelSmashed : Kernel :=
  mkKernel cfg4
    [{ dispatcherTcb cfg4 with pstack := some [0xdeadbeef, 0] }, mkJob cfg4 1 65 2,
      mkJob cfg4 2 66 1, mkJob cfg4 3 67 3]
    [1, 2, 3]

/-- As `kernelABC`, with every capacity at least 1 but the guard word of job A's
stack overwritten. -/
def kernelJobSmashed : Kernel :=
  mkKernel cfg4
    [dispatcherTcb cfg4, { mkJob cfg4 1 65 2 with pstack := some [0xdeadbeef, 0] },
      mkJob cfg4 2 66 1, mkJob cfg4 3 67 3]
    [1, 2, 3]

/-- Jobs A (1 job) and B (1 job) with intact guard words, A queued twice: the
queue holds A, B, A. -/
def kernelDup : Kernel :=
  mkKernel cfg4 [dispatcherTcb cfg4, mkJob cfg4 1 65 1, mkJob cfg4 2 66 1, mkJob cfg4 3 67 0]
    [1, 2, 1]

/-- Whether a pass ended in the yield branch. -/
def Outcome.isYielded : Outcome → Bool
  | Outcome.yielded _ => true
  | _ => false

/-! ### Lemmas on `clear_tcb` -/

theorem slotCleared_clear_slot (t : TCB) : SlotCleared (clear_slot t) := by
  refine ⟨rfl, rfl, ?_, rfl, rfl, rfl, rfl, rfl, rfl, rfl, rfl, rfl, rfl, rfl, rfl⟩
  intro b hb
  exact List.eq_of_mem_replicate hb

/-- The loop started at `i` with enough fuel ends, keeps the slots below `i` and
clears every slot from `i` on. -/
theorem clear_tcb_loop_spec (cfg : KernelConfig) (hmax : cfg.MAX_TASKS ≤ 65535) :
    ∀ (n fuel i : Nat) (k : Kernel), cfg.MAX_TASKS - i = n → i ≤ cfg.MAX_TASKS → n ≤ fuel →
      k.krnl_tcb.length = cfg.MAX_TASKS →
      ∃ k1, clear_tcb_loop cfg fuel i k = some k1 ∧
        k1.krnl_tcb.length = cfg.MAX_TASKS ∧
        (∀ j, i ≤ j → j < cfg.MAX_TASKS → ∃ t, k1.krnl_tcb[j]? = some t ∧ SlotCleared t) ∧
        (∀ j, j < i → k1.krnl_tcb[j]? = k.krnl_tcb[j]?) := by
  intro n
  induction n with
  | zero =>
    intro fuel i k hn hi _ hlen
    have hge : ¬ i < cfg.MAX_TASKS := by omega
    refine ⟨k, ?_, hlen, ?_, fun _ _ => rfl⟩
    · unfold clear_tcb_loop
      simp [hge]
    · intro j h1 h2
      omega
  | succ n ih =>
    intro fuel i k hn hi hfuel hlen
    have hlt : i < cfg.MAX_TASKS := by omega
    obtain ⟨f, rfl⟩ : ∃ f, fuel = f + 1 := ⟨fuel - 1, by omega⟩
    have hil : i < k.krnl_tcb.length := by omega
    have hget : k.krnl_tcb[i]? = some (k.krnl_tcb[i]) := List.getElem?_eq_getElem hil
    have hmod : (i + 1) % 65536 = i + 1 := Nat.mod_eq_of_lt (by omega)
    obtain ⟨k1, hk1, hlen1, hclr, hkeep⟩ :=
      ih f (i + 1)
        { k with krnl_task := some i, krnl_tcb := k.krnl_tcb.set i (clear_slot k.krnl_tcb[i]) }
        (by omega) (by omega) (by omega) (by simpa using hlen)
    refine ⟨k1, ?_, hlen1, ?_, ?_⟩
    · rw [clear_tcb_loop]
      simp only [hlt, if_true, hget, hmod]
      exact hk1
    · intro j h1 h2
      by_cases hji : j = i
      · subst hji
        refine ⟨clear_slot k.krnl_tcb[j], ?_, slotCleared_clear_slot _⟩
        rw [hkeep j (by omega)]
        simp [hil]
      · exact hclr j (by omega) h2
    · intro j hj
      rw [hkeep j (by omega)]
      simp only
      rw [List.getElem?_set_ne (by omega)]

/-- C4. For every prior content of the pool of `MAX_TASKS` slots (with `MAX_TASKS`
in the range of the `uint16_t` loop counter), `clear_tcb` returns, and afterwards
every one of the `MAX_TASKS` slots has `id == -1`, state `TASK_IDLE`, an all-zero
name and every numeric scheduling field equal to zero. -/
theorem clear_tcb_resets_every_slot (cfg : KernelConfig) (k : Kernel)
    (hlen : k.krnl_tcb.length = cfg.MAX_TASKS) (hmax : cfg.MAX_TASKS ≤ 65535) :
    ∃ k1, clear_tcb cfg cfg.MAX_TASKS k = some k1 ∧
      k1.krnl_tcb.length = cfg.MAX_TASKS ∧
      ∀ i, i < cfg.MAX_TASKS → ∃ t, k1.krnl_tcb[i]? = some t ∧ SlotCleared t := by
  obtain ⟨k1, hk1, hlen1, hclr, _⟩ :=
    clear_tcb_loop_spec cfg hmax cfg.MAX_TASKS cfg.MAX_TASKS 0 k (by omega) (by omega)
      (le_refl _) hlen
  refine ⟨{ k1 with krnl_tasks := 0, krnl_current_task := 0, krnl_schedule := 0 }, ?_, hlen1, ?_⟩
  · simp [clear_tcb, hk1]
  · intro i hi
    exact hclr i (Nat.zero_le _) hi


/-! ### Lemmas on the pool -/

/-- Overwriting a slot with a descriptor that agrees with the old one under `f`
leaves the image of the pool under `f` as it was. -/
theorem map_set_same {β : Type} (f : TCB → β) (l : List TCB) (i : Nat) (t t1 : TCB)
    (h : l[i]? = some t) (hf : f t1 = f t) : (l.set i t1).map f = l.map f := by
  apply List.ext_getElem?
  intro j
  by_cases hij : i = j
  · subst hij
    obtain ⟨hi, hli⟩ := List.getElem?_eq_some.mp h
    simp [List.getElem?_set, hi, hf, hli]
  · simp [List.getElem?_set, hij]

theorem tcbAt_eq_some {pool : List TCB} {i : Int} {t : TCB} (h : tcbAt pool i = some t) :
    0 ≤ i ∧ pool[i.toNat]? = some t := by
  unfold tcbAt at h
  by_cases h0 : 0 ≤ i
  · simp [h0] at h
    exact ⟨h0, h⟩
  · simp [h0] at h

/-! ### The pass, branch by branch -/

/-- A fresh pass whose canary check fails: the state it halts in. -/
theorem iter_canary_bad (cfg : KernelConfig) (ctx : Nat) (k : Kernel)
    (t : TCB) (stack : List Nat) (w : Nat)
    (hcur : tcbAt k.krnl_tcb k.krnl_current_task = some t)
    (hstack : t.pstack = some stack) (hguard : stack.head? = some w)
    (hbad : w ≠ cfg.STACK_MAGIC) :
    escalonadorAperiodico_iter cfg 0 ctx k =
      Outcome.panicked PanicCode.PANIC_STACK_OVERFLOW (savedKernel ctx k t) := by
  simp [escalonadorAperiodico_iter, hcur, hstack, hguard, hbad]

/-- A fresh pass whose canary check succeeds goes on to the queue test. -/
theorem iter_canary_ok (cfg : KernelConfig) (ctx : Nat) (k : Kernel)
    (t : TCB) (stack : List Nat)
    (hcur : tcbAt k.krnl_tcb k.krnl_current_task = some t)
    (hstack : t.pstack = some stack) (hguard : stack.head? = some cfg.STACK_MAGIC) :
    escalonadorAperiodico_iter cfg 0 ctx k = dispatchOrYield k.irq (demotedKernel ctx k t) := by
  simp [escalonadorAperiodico_iter, hcur, hstack, hguard]

theorem dispatchOrYield_empty (status : Bool) (k3 : Kernel) (q : Queue)
    (hq : k3.krnl_tarefas_aper = some q) (hitems : q.items = []) :
    dispatchOrYield status k3 = Outcome.yielded { k3 with irq := status } := by
  simp [dispatchOrYield, hq, hf_queue_count, hitems]

/-- The head job has more than one job left and the queue has room: it goes back
to the tail. -/
theorem dispatchOrYield_requeue (status : Bool) (k3 : Kernel) (q : Queue) (r : Nat)
    (rest : List Nat) (t : TCB)
    (hq : k3.krnl_tarefas_aper = some q) (hitems : q.items = r :: rest)
    (hr : k3.krnl_tcb[r]? = some t) (hcap : 1 < t.capacity) (hroom : rest.length < q.size) :
    dispatchOrYield status k3 =
      Outcome.dispatched
        { dequeuedKernel k3 r t { q with items := rest } with
          krnl_tarefas_aper := some { q with items := rest ++ [r] } } := by
  have h1 : (runningTcb t).capacity > 0 := by simp only [runningTcb]; omega
  simp [dispatchOrYield, hq, hf_queue_count, hitems, hf_queue_remhead, hr, h1,
    hf_queue_addtail, hroom]

/-- The head job has more than one job left and the queue has no room. -/
theorem dispatchOrYield_full (status : Bool) (k3 : Kernel) (q : Queue) (r : Nat)
    (rest : List Nat) (t : TCB)
    (hq : k3.krnl_tarefas_aper = some q) (hitems : q.items = r :: rest)
    (hr : k3.krnl_tcb[r]? = some t) (hcap : 1 < t.capacity) (hroom : ¬ rest.length < q.size) :
    dispatchOrYield status k3 =
      Outcome.panicked PanicCode.PANIC_CANT_PLACE_RUN
        (dequeuedKernel k3 r t { q with items := rest }) := by
  have h1 : (runningTcb t).capacity > 0 := by simp only [runningTcb]; omega
  simp [dispatchOrYield, hq, hf_queue_count, hitems, hf_queue_remhead, hr, h1,
    hf_queue_addtail, hroom]

/-- The head job has no job left after the decrement: the second
`hf_queue_remhead` takes the entry behind it off the queue as well. -/
theorem dispatchOrYield_drop (status : Bool) (k3 : Kernel) (q : Queue) (r : Nat)
    (rest : List Nat) (t : TCB)
    (hq : k3.krnl_tarefas_aper = some q) (hitems : q.items = r :: rest)
    (hr : k3.krnl_tcb[r]? = some t) (hcap : t.capacity ≤ 1) :
    dispatchOrYield status k3 =
      Outcome.dispatched
        { dequeuedKernel k3 r t { q with items := rest } with
          krnl_tarefas_aper := some { q with items := rest.tail } } := by
  have h1 : ¬ (runningTcb t).capacity > 0 := by simp only [runningTcb]; omega
  cases rest with
  | nil =>
    simp [dispatchOrYield, hq, hf_queue_count, hitems, hf_queue_remhead, hr, h1, dequeuedKernel]
  | cons x xs =>
    simp [dispatchOrYield, hq, hf_queue_count, hitems, hf_queue_remhead, hr, h1]

theorem dispatchOrYield_bad_ref (status : Bool) (k3 : Kernel) (q : Queue) (r : Nat)
    (rest : List Nat)
    (hq : k3.krnl_tarefas_aper = some q) (hitems : q.items = r :: rest)
    (hr : k3.krnl_tcb[r]? = none) :
    dispatchOrYield status k3 = Outcome.undefined := by
  simp [dispatchOrYield, hq, hf_queue_count, hitems, hf_queue_remhead, hr]

/-! ### The pool after the demotion -/

theorem demotedKernel_aper (ctx : Nat) (k : Kernel) (t : TCB) :
    (demotedKernel ctx k t).krnl_tarefas_aper = k.krnl_tarefas_aper := by
  unfold demotedKernel
  split <;> rfl

theorem demotedKernel_current (ctx : Nat) (k : Kernel) (t : TCB) :
    (demotedKernel ctx k t).krnl_current_task = k.krnl_current_task := by
  unfold demotedKernel
  split <;> rfl

theorem demotedKernel_tcb (ctx : Nat) (k : Kernel) (t : TCB) :
    (demotedKernel ctx k t).krnl_tcb =
      k.krnl_tcb.set k.krnl_current_task.toNat (demoteTcb ctx t) := by
  unfold demotedKernel demoteTcb savedKernel
  split
  · next h => simp [h, List.set_set]
  · next h => simp [h]

theorem demotedKernel_length (ctx : Nat) (k : Kernel) (t : TCB) :
    (demotedKernel ctx k t).krnl_tcb.length = k.krnl_tcb.length := by
  rw [demotedKernel_tcb, List.length_set]

theorem demoteTcb_not_running (ctx : Nat) (t : TCB) :
    (demoteTcb ctx t).state ≠ TaskState.TASK_RUNNING := by
  unfold demoteTcb
  by_cases h : t.state = TaskState.TASK_RUNNING
  · simp [h]
  · simp [h]

/-- A slot of the pool after the demotion: same `id`, `capacity`, `pstack` and
`name` as before; if it is `TASK_RUNNING` it is not the current slot and it was
`TASK_RUNNING` before. -/
theorem demotedKernel_get (ctx : Nat) (k : Kernel) (t : TCB) (j : Nat) (tj : TCB)
    (hget : k.krnl_tcb[k.krnl_current_task.toNat]? = some t)
    (hj : k.krnl_tcb[j]? = some tj) :
    ∃ tj1, (demotedKernel ctx k t).krnl_tcb[j]? = some tj1 ∧ tj1.id = tj.id ∧
      tj1.capacity = tj.capacity ∧ tj1.pstack = tj.pstack ∧ tj1.name = tj.name ∧
      (tj1.state = TaskState.TASK_RUNNING →
        tj.state = TaskState.TASK_RUNNING ∧ j ≠ k.krnl_current_task.toNat) := by
  rw [demotedKernel_tcb]
  obtain ⟨hjl, hjv⟩ := List.getElem?_eq_some.mp hj
  by_cases hc : k.krnl_current_task.toNat = j
  · subst hc
    rw [hget] at hj
    cases hj
    refine ⟨demoteTcb ctx t, ?_, rfl, rfl, rfl, rfl, ?_⟩
    · simp [List.getElem?_set, hjl]
    · intro h
      exact absurd h (demoteTcb_not_running ctx t)
  · refine ⟨tj, ?_, rfl, rfl, rfl, rfl, ?_⟩
    · simp [List.getElem?_set, hc, hj]
    · intro h
      exact ⟨h, fun e => hc e.symm⟩

theorem demotedKernel_get_none (ctx : Nat) (k : Kernel) (t : TCB) (j : Nat)
    (hj : k.krnl_tcb[j]? = none) : (demotedKernel ctx k t).krnl_tcb[j]? = none := by
  rw [demotedKernel_tcb]
  rw [List.getElem?_eq_none_iff] at hj ⊢
  simpa using hj

theorem demotedKernel_map (ctx : Nat) (k : Kernel) (t : TCB) {β : Type} (f : TCB → β)
    (hget : k.krnl_tcb[k.krnl_current_task.toNat]? = some t)
    (hf : f (demoteTcb ctx t) = f t) :
    (demotedKernel ctx k t).krnl_tcb.map f = k.krnl_tcb.map f := by
  rw [demotedKernel_tcb]
  exact map_set_same f _ _ t _ hget hf

/-- A fresh pass with an intact canary and a non-empty queue whose head `r` is a
slot of the pool: the three ways it can end, all in a state whose pool is the
demoted pool with slot `r` marked `TASK_RUNNING` and decremented. -/
theorem iter_nonempty (cfg : KernelConfig) (ctx : Nat) (k : Kernel)
    (t : TCB) (stack : List Nat) (q : Queue) (r : Nat) (rest : List Nat) (tj : TCB)
    (hcur : tcbAt k.krnl_tcb k.krnl_current_task = some t)
    (hstack : t.pstack = some stack) (hguard : stack.head? = some cfg.STACK_MAGIC)
    (hq : k.krnl_tarefas_aper = some q) (hitems : q.items = r :: rest)
    (hr : k.krnl_tcb[r]? = some tj) :
    ∃ tj1 k1, (demotedKernel ctx k t).krnl_tcb[r]? = some tj1 ∧ tj1.id = tj.id ∧
      tj1.capacity = tj.capacity ∧ tj1.pstack = tj.pstack ∧ tj1.name = tj.name ∧
      k1.krnl_tcb = (demotedKernel ctx k t).krnl_tcb.set r (runningTcb tj1) ∧
      k1.krnl_current_task = tj.id ∧ k1.krnl_task = some r ∧
      ((1 < tj.capacity ∧ rest.length < q.size ∧
          escalonadorAperiodico_iter cfg 0 ctx k = Outcome.dispatched k1 ∧
          k1.krnl_tarefas_aper = some { q with items := rest ++ [r] }) ∨
       (1 < tj.capacity ∧ ¬ rest.length < q.size ∧
          escalonadorAperiodico_iter cfg 0 ctx k =
            Outcome.panicked PanicCode.PANIC_CANT_PLACE_RUN k1 ∧
          k1.krnl_tarefas_aper = some { q with items := rest }) ∨
       (tj.capacity ≤ 1 ∧
          escalonadorAperiodico_iter cfg 0 ctx k = Outcome.dispatched k1 ∧
          k1.krnl_tarefas_aper = some { q with items := rest.tail })) := by
  obtain ⟨_, hget⟩ := tcbAt_eq_some hcur
  obtain ⟨tj1, h1, hid, hcapeq, hps, hnm, _⟩ := demotedKernel_get ctx k t r tj hget hr
  have hq3 : (demotedKernel ctx k t).krnl_tarefas_aper = some q := by
    rw [demotedKernel_aper, hq]
  rw [iter_canary_ok cfg ctx k t stack hcur hstack hguard]
  by_cases hc : 1 < tj.capacity
  · by_cases hroom : rest.length < q.size
    · refine ⟨tj1, _, h1, hid, hcapeq, hps, hnm, ?_, ?_, ?_, Or.inl ⟨hc, hroom,
        dispatchOrYield_requeue k.irq _ q r rest tj1 hq3 hitems h1 (by omega) hroom, rfl⟩⟩
      · rfl
      · exact hid
      · rfl
    · refine ⟨tj1, _, h1, hid, hcapeq, hps, hnm, ?_, ?_, ?_, Or.inr (Or.inl ⟨hc, hroom,
        dispatchOrYield_full k.irq _ q r rest tj1 hq3 hitems h1 (by omega) hroom, rfl⟩)⟩
      · rfl
      · exact hid
      · rfl
  · refine ⟨tj1, _, h1, hid, hcapeq, hps, hnm, ?_, ?_, ?_, Or.inr (Or.inr ⟨by omega,
      dispatchOrYield_drop k.irq _ q r rest tj1 hq3 hitems h1 (by omega), rfl⟩)⟩
    · rfl
    · exact hid
    · rfl

/-! ### Claims on one pass -/

/-- C5. For every kernel state in which the guard word `pstack[0]` of the current
task differs from `STACK_MAGIC`, a fresh pass of `escalonadorAperiodico` ends in
`panic(PANIC_STACK_OVERFLOW)` with nothing dispatched: the aperiodic queue, every
TCB state (so no TCB is newly `TASK_RUNNING`), every capacity, every `id` and
`krnl_current_task` are as before the pass. -/
theorem canary_mismatch_panics_before_dispatch (cfg : KernelConfig) (ctx : Nat) (k : Kernel)
    (t : TCB) (stack : List Nat) (w : Nat)
    (hcur : tcbAt k.krnl_tcb k.krnl_current_task = some t)
    (hstack : t.pstack = some stack) (hguard : stack.head? = some w)
    (hbad : w ≠ cfg.STACK_MAGIC) :
    ∃ k1, escalonadorAperiodico_iter cfg 0 ctx k =
        Outcome.panicked PanicCode.PANIC_STACK_OVERFLOW k1 ∧
      k1.krnl_tarefas_aper = k.krnl_tarefas_aper ∧
      k1.krnl_current_task = k.krnl_current_task ∧
      k1.krnl_tcb.map TCB.state = k.krnl_tcb.map TCB.state ∧
      k1.krnl_tcb.map TCB.capacity = k.krnl_tcb.map TCB.capacity ∧
      k1.krnl_tcb.map TCB.id = k.krnl_tcb.map TCB.id := by
  obtain ⟨_, hget⟩ := tcbAt_eq_some hcur
  refine ⟨savedKernel ctx k t, iter_canary_bad cfg ctx k t stack w hcur hstack hguard hbad,
    rfl, rfl, ?_, ?_, ?_⟩
  · exact map_set_same TCB.state _ _ t _ hget rfl
  · exact map_set_same TCB.capacity _ _ t _ hget rfl
  · exact map_set_same TCB.id _ _ t _ hget rfl

/-- C3. For every non-empty aperiodic queue (count within capacity) whose head job
has remaining count `c > 1`, one fresh pass of `escalonadorAperiodico` with a valid
canary dispatches: it decrements that job's capacity to exactly `c - 1`, marks it
`TASK_RUNNING` and puts it back at the tail, so that the queue afterwards is the
previous tail followed by that job, every other capacity is unchanged and the
queue count is unchanged. -/
theorem head_with_jobs_left_is_requeued (cfg : KernelConfig) (ctx : Nat) (k : Kernel)
    (t : TCB) (stack : List Nat) (q : Queue) (r : Nat) (rest : List Nat) (tj : TCB) (c : Int)
    (hcur : tcbAt k.krnl_tcb k.krnl_current_task = some t)
    (hstack : t.pstack = some stack) (hguard : stack.head? = some cfg.STACK_MAGIC)
    (hq : k.krnl_tarefas_aper = some q) (hbound : q.items.length ≤ q.size)
    (hitems : q.items = r :: rest)
    (hr : k.krnl_tcb[r]? = some tj) (hc : tj.capacity = c) (hgt : 1 < c) :
    ∃ k1, escalonadorAperiodico_iter cfg 0 ctx k = Outcome.dispatched k1 ∧
      k1.krnl_tarefas_aper = some { q with items := rest ++ [r] } ∧
      hf_queue_count { q with items := rest ++ [r] } = hf_queue_count q ∧
      k1.krnl_tcb.map TCB.capacity = (k.krnl_tcb.map TCB.capacity).set r (c - 1) ∧
      (∃ t1, k1.krnl_tcb[r]? = some t1 ∧ t1.capacity = c - 1 ∧
        t1.state = TaskState.TASK_RUNNING) := by
  obtain ⟨_, hget⟩ := tcbAt_eq_some hcur
  obtain ⟨tj1, k1, h1, _, hcapeq, _, _, hpool, _, _, hcase⟩ :=
    iter_nonempty cfg ctx k t stack q r rest tj hcur hstack hguard hq hitems hr
  have hroom : rest.length < q.size := by
    rw [hitems] at hbound
    simp at hbound
    omega
  have hrl : r < (demotedKernel ctx k t).krnl_tcb.length :=
    (List.getElem?_eq_some.mp h1).1
  rcases hcase with ⟨_, _, hiter, haper⟩ | ⟨_, hno, _, _⟩ | ⟨hle, _, _⟩
  · refine ⟨k1, hiter, haper, ?_, ?_, ?_⟩
    · simp [hf_queue_count, hitems]
    · rw [hpool, List.map_set, demotedKernel_map ctx k t TCB.capacity hget rfl]
      simp [runningTcb, hcapeq, hc]
    · refine ⟨runningTcb tj1, ?_, ?_, rfl⟩
      · rw [hpool]
        simp [List.getElem?_set, hrl]
      · simp [runningTcb, hcapeq, hc]
  · exact absurd hroom hno
  · omega

/-- The pass that finishes the head job, in general: the queue afterwards is the
previous queue without its first two entries (`rest.tail`), the entry behind the
head being removed by the second `hf_queue_remhead` with its capacity untouched. -/
theorem head_with_last_job_removes_next (cfg : KernelConfig) (ctx : Nat) (k : Kernel)
    (t : TCB) (stack : List Nat) (q : Queue) (r : Nat) (rest : List Nat) (tj : TCB)
    (hcur : tcbAt k.krnl_tcb k.krnl_current_task = some t)
    (hstack : t.pstack = some stack) (hguard : stack.head? = some cfg.STACK_MAGIC)
    (hq : k.krnl_tarefas_aper = some q) (hitems : q.items = r :: rest)
    (hr : k.krnl_tcb[r]? = some tj) (hc : tj.capacity = 1) :
    ∃ k1, escalonadorAperiodico_iter cfg 0 ctx k = Outcome.dispatched k1 ∧
      k1.krnl_tarefas_aper = some { q with items := rest.tail } ∧
      k1.krnl_tcb.map TCB.capacity = (k.krnl_tcb.map TCB.capacity).set r 0 := by
  obtain ⟨_, hget⟩ := tcbAt_eq_some hcur
  obtain ⟨tj1, k1, _, _, hcapeq, _, _, hpool, _, _, hcase⟩ :=
    iter_nonempty cfg ctx k t stack q r rest tj hcur hstack hguard hq hitems hr
  rcases hcase with ⟨hgt, _, _, _⟩ | ⟨hgt, _, _, _⟩ | ⟨_, hiter, haper⟩
  · omega
  · omega
  · refine ⟨k1, hiter, haper, ?_⟩
    rw [hpool, List.map_set, demotedKernel_map ctx k t TCB.capacity hget rfl]
    simp [runningTcb, hcapeq, hc]

/-- C6. For every kernel state in which the only TCB that may be `TASK_RUNNING` is
the one at index `krnl_current_task` and every queued reference points at a TCB
whose `id` equals its pool index, a fresh pass with a valid canary and a non-empty
aperiodic queue ends (dispatched when the queue count is within its capacity)
with exactly one TCB in state `TASK_RUNNING`, namely the dequeued job `r`, and
with `krnl_current_task` equal to that job's `id`. -/
theorem exactly_one_running_after_dispatch (cfg : KernelConfig) (ctx : Nat) (k : Kernel)
    (t : TCB) (stack : List Nat) (q : Queue) (r : Nat) (rest : List Nat)
    (hcur : tcbAt k.krnl_tcb k.krnl_current_task = some t)
    (hstack : t.pstack = some stack) (hguard : stack.head? = some cfg.STACK_MAGIC)
    (honly : ∀ (i : Nat) (ti : TCB), k.krnl_tcb[i]? = some ti →
      ti.state = TaskState.TASK_RUNNING → (i : Int) = k.krnl_current_task)
    (hq : k.krnl_tarefas_aper = some q) (hitems : q.items = r :: rest)
    (hrefs : ∀ x ∈ q.items, ∃ tx, k.krnl_tcb[x]? = some tx ∧ tx.id = (x : Int)) :
    ∃ k1,
      (escalonadorAperiodico_iter cfg 0 ctx k = Outcome.dispatched k1 ∨
        escalonadorAperiodico_iter cfg 0 ctx k =
          Outcome.panicked PanicCode.PANIC_CANT_PLACE_RUN k1) ∧
      (q.items.length ≤ q.size →
        escalonadorAperiodico_iter cfg 0 ctx k = Outcome.dispatched k1) ∧
      (∀ (i : Nat) (ti : TCB), k1.krnl_tcb[i]? = some ti →
        (ti.state = TaskState.TASK_RUNNING ↔ i = r)) ∧
      (∃ tr, k1.krnl_tcb[r]? = some tr ∧ tr.state = TaskState.TASK_RUNNING ∧
        k1.krnl_current_task = tr.id) ∧
      k1.krnl_current_task = (r : Int) ∧ k1.krnl_task = some r := by
  obtain ⟨_, hget⟩ := tcbAt_eq_some hcur
  obtain ⟨tj, hr, hidr⟩ := hrefs r (by simp [hitems])
  obtain ⟨tj1, k1, h1, hid1, _, _, _, hpool, hcurrent, htask, hcase⟩ :=
    iter_nonempty cfg ctx k t stack q r rest tj hcur hstack hguard hq hitems hr
  have hrl : r < (demotedKernel ctx k t).krnl_tcb.length :=
    (List.getElem?_eq_some.mp h1).1
  have hat : k1.krnl_tcb[r]? = some (runningTcb tj1) := by
    rw [hpool]
    simp [List.getElem?_set, hrl]
  refine ⟨k1, ?_, ?_, ?_, ⟨_, hat, rfl, ?_⟩, ?_, htask⟩
  · rcases hcase with ⟨_, _, hiter, _⟩ | ⟨_, _, hiter, _⟩ | ⟨_, hiter, _⟩
    · exact Or.inl hiter
    · exact Or.inr hiter
    · exact Or.inl hiter
  · intro hbound
    rcases hcase with ⟨_, _, hiter, _⟩ | ⟨_, hno, _, _⟩ | ⟨_, hiter, _⟩
    · exact hiter
    · rw [hitems] at hbound
      simp at hbound
      omega
    · exact hiter
  · intro i ti hi
    by_cases hir : i = r
    · subst hir
      rw [hat] at hi
      cases hi
      simp [runningTcb]
    · constructor
      · intro hrun
        exfalso
        rw [hpool, List.getElem?_set_ne (fun e => hir e.symm)] at hi
        have hil : i < k.krnl_tcb.length := by
          have := (List.getElem?_eq_some.mp hi).1
          rwa [demotedKernel_length] at this
        obtain ⟨ti1, hi1, _, _, _, _, hst⟩ :=
          demotedKernel_get ctx k t i k.krnl_tcb[i] hget (List.getElem?_eq_getElem hil)
        rw [hi] at hi1
        cases hi1
        obtain ⟨hwas, hne⟩ := hst hrun
        have := honly i _ (List.getElem?_eq_getElem hil) hwas
        apply hne
        omega
      · intro h
        exact absurd h hir
  · rw [hcurrent]
    exact hid1.symm
  · rw [hcurrent, hidr]

/-- In the queue model `hf_queue_addtail` fails exactly on a full queue. -/
theorem hf_queue_addtail_eq_none_iff (q : Queue) (r : Nat) :
    hf_queue_addtail q r = none ↔ q.size ≤ q.items.length := by
  unfold hf_queue_addtail
  by_cases h : q.items.length < q.size
  · simp [h]
  · simp [h]
    omega

/-- C9. For every kernel state in which the aperiodic queue's count is within
`[0, capacity]` (with `hf_queue_addtail` failing only on a full queue), a pass of
`escalonadorAperiodico`, fresh or resumed, never ends in
`panic(PANIC_CANT_PLACE_RUN)`, and the queue count after the pass never exceeds
the count before it. -/
theorem pass_never_fails_to_requeue (cfg : KernelConfig) (rc : Int) (ctx : Nat) (k : Kernel)
    (q : Queue) (hq : k.krnl_tarefas_aper = some q) (hbound : hf_queue_count q ≤ q.size) :
    (∀ k1, escalonadorAperiodico_iter cfg rc ctx k ≠
        Outcome.panicked PanicCode.PANIC_CANT_PLACE_RUN k1) ∧
    (∀ k1 q1, (escalonadorAperiodico_iter cfg rc ctx k).kernel = some k1 →
        k1.krnl_tarefas_aper = some q1 →
        hf_queue_count q1 ≤ hf_queue_count q ∧ q1.size = q.size) := by
  unfold hf_queue_count at hbound
  cases hcur : tcbAt k.krnl_tcb k.krnl_current_task with
  | none =>
    have hiter : escalonadorAperiodico_iter cfg rc ctx k = Outcome.undefined := by
      simp [escalonadorAperiodico_iter, hcur]
    rw [hiter]
    simp [Outcome.kernel]
  | some t =>
    by_cases hrc : rc ≠ 0
    · have hiter : escalonadorAperiodico_iter cfg rc ctx k =
          Outcome.resumed { savedKernel ctx k t with irq := k.irq } := by
        simp [escalonadorAperiodico_iter, hcur, hrc]
      rw [hiter]
      refine ⟨fun _ h => ?_, ?_⟩
      · cases h
      intro k1 q1 h1 h2
      simp only [Outcome.kernel, Option.some.injEq] at h1
      subst h1
      simp only [savedKernel, hq, Option.some.injEq] at h2
      subst h2
      exact ⟨le_refl _, rfl⟩
    · have hrc0 : rc = 0 := by
        by_contra h
        exact hrc h
      subst hrc0
      cases hstack : t.pstack with
      | none =>
        have hiter : escalonadorAperiodico_iter cfg 0 ctx k = Outcome.undefined := by
          simp [escalonadorAperiodico_iter, hcur, hstack]
        rw [hiter]
        simp [Outcome.kernel]
      | some stack =>
        cases hguard : stack.head? with
        | none =>
          have hiter : escalonadorAperiodico_iter cfg 0 ctx k = Outcome.undefined := by
            simp [escalonadorAperiodico_iter, hcur, hstack, hguard]
          rw [hiter]
          simp [Outcome.kernel]
        | some w =>
          by_cases hw : w ≠ cfg.STACK_MAGIC
          · rw [iter_canary_bad cfg ctx k t stack w hcur hstack hguard hw]
            refine ⟨fun _ h => ?_, ?_⟩
            · cases h
            intro k1 q1 h1 h2
            simp only [Outcome.kernel, Option.some.injEq] at h1
            subst h1
            simp only [savedKernel, hq, Option.some.injEq] at h2
            subst h2
            exact ⟨le_refl _, rfl⟩
          · have hw0 : w = cfg.STACK_MAGIC := by
              by_contra h
              exact hw h
            subst hw0
            have hq3 : (demotedKernel ctx k t).krnl_tarefas_aper = some q := by
              rw [demotedKernel_aper, hq]
            cases hitems : q.items with
            | nil =>
              rw [iter_canary_ok cfg ctx k t stack hcur hstack hguard,
                dispatchOrYield_empty k.irq _ q hq3 hitems]
              refine ⟨fun _ h => ?_, ?_⟩
              · cases h
              intro k1 q1 h1 h2
              simp only [Outcome.kernel, Option.some.injEq] at h1
              subst h1
              simp only [hq3, Option.some.injEq] at h2
              subst h2
              exact ⟨le_refl _, rfl⟩
            | cons r rest =>
              cases hr : k.krnl_tcb[r]? with
              | none =>
                rw [iter_canary_ok cfg ctx k t stack hcur hstack hguard,
                  dispatchOrYield_bad_ref k.irq _ q r rest hq3 hitems
                    (demotedKernel_get_none ctx k t r hr)]
                simp [Outcome.kernel]
              | some tj =>
                obtain ⟨tj1, k2, _, _, _, _, _, _, _, _, hcase⟩ :=
                  iter_nonempty cfg ctx k t stack q r rest tj hcur hstack hguard hq hitems hr
                rw [hitems] at hbound
                simp only [List.length_cons] at hbound
                rcases hcase with ⟨_, _, hiter, haper⟩ | ⟨_, hno, _, _⟩ | ⟨_, hiter, haper⟩
                · rw [hiter]
                  refine ⟨fun _ h => ?_, ?_⟩
                  · cases h
                  intro k1 q1 h1 h2
                  simp only [Outcome.kernel, Option.some.injEq] at h1
                  subst h1
                  rw [haper] at h2
                  cases h2
                  simp [hf_queue_count, hitems]
                · omega
                · rw [hiter]
                  refine ⟨fun _ h => ?_, ?_⟩
                  · cases h
                  intro k1 q1 h1 h2
                  simp only [Outcome.kernel, Option.some.injEq] at h1
                  subst h1
                  rw [haper] at h2
                  cases h2
                  simp [hf_queue_count, hitems]
                  omega

/-! ### Draining the queue -/

theorem capacityOf_eq_map (pool : List TCB) (x : Nat) :
    capacityOf pool x = ((pool.map TCB.capacity)[x]?).getD 0 := by
  unfold capacityOf
  rw [List.getElem?_map]
  cases pool[x]? <;> rfl

theorem aperItems_eq (k : Kernel) (q : Queue) (hq : k.krnl_tarefas_aper = some q) :
    aperItems k = q.items := by
  simp [aperItems, hq]

/-- Guard words are read through `pstack` only: pools with the same `pstack`
column have the same intact guards. -/
theorem guardOk_of_map_pstack (cfg : KernelConfig) {pool pool1 : List TCB}
    (h : pool1.map TCB.pstack = pool.map TCB.pstack) (i : Int)
    (hg : GuardOk cfg pool i) : GuardOk cfg pool1 i := by
  obtain ⟨t, stack, hi, hps, hhead⟩ := hg
  obtain ⟨h0, hget⟩ := tcbAt_eq_some hi
  have h1 : (pool1.map TCB.pstack)[i.toNat]? = some (some stack) := by
    rw [h, List.getElem?_map, hget]
    simp [hps]
  rw [List.getElem?_map] at h1
  cases hp1 : pool1[i.toNat]? with
  | none => simp [hp1] at h1
  | some t1 =>
    simp [hp1] at h1
    exact ⟨t1, stack, by simp [tcbAt, h0, hp1], h1, hhead⟩

theorem jobOk_capacityOf {cfg : KernelConfig} {pool : List TCB} {r : Nat}
    (h : JobOk cfg pool r) : 1 ≤ capacityOf pool r := by
  obtain ⟨t, hr, hc, _⟩ := h
  simp [capacityOf, hr, hc]

theorem length_le_sum_capacity (cfg : KernelConfig) (pool : List TCB) :
    ∀ l : List Nat, (∀ r ∈ l, JobOk cfg pool r) →
      (l.length : Int) ≤ (l.map (capacityOf pool)).sum := by
  intro l
  induction l with
  | nil => intro _; simp
  | cons a l ih =>
    intro h
    have ha := jobOk_capacityOf (h a (by simp))
    have hl := ih (fun r hr => h r (by simp [hr]))
    simp only [List.length_cons, List.map_cons, List.sum_cons]
    push_cast
    omega

/-- An empty queue and an intact canary: the pass yields, and the next one will. -/
theorem yield_pass (cfg : KernelConfig) (ctx : Nat) (k : Kernel) (q : Queue)
    (hcan : CanaryOk cfg k) (hq : k.krnl_tarefas_aper = some q) (hitems : q.items = []) :
    ∃ k1, escalonadorAperiodico_iter cfg 0 ctx k = Outcome.yielded k1 ∧
      k1.krnl_tarefas_aper = some q ∧ CanaryOk cfg k1 := by
  obtain ⟨t, stack, hcur, hstack, hguard⟩ := hcan
  obtain ⟨h0, hget⟩ := tcbAt_eq_some hcur
  have hq3 : (demotedKernel ctx k t).krnl_tarefas_aper = some q := by
    rw [demotedKernel_aper, hq]
  refine ⟨{ demotedKernel ctx k t with irq := k.irq }, ?_, hq3, ?_⟩
  · rw [iter_canary_ok cfg ctx k t stack hcur hstack hguard,
      dispatchOrYield_empty k.irq _ q hq3 hitems]
  · refine ⟨demoteTcb ctx t, stack, ?_, hstack, hguard⟩
    have hl := (List.getElem?_eq_some.mp hget).1
    show tcbAt (demotedKernel ctx k t).krnl_tcb (demotedKernel ctx k t).krnl_current_task = _
    rw [demotedKernel_current, demotedKernel_tcb]
    simp [tcbAt, h0, List.getElem?_set, hl]

/-- A dispatch from a well-formed state leads to a well-formed state with the same
queue size and strictly less total remaining capacity. -/
theorem dispatch_pass (cfg : KernelConfig) (ctx : Nat) (k : Kernel)
    (h : DispatchReady cfg k) (hne : aperItems k ≠ []) :
    ∃ k1 r, escalonadorAperiodico_iter cfg 0 ctx k = Outcome.dispatched k1 ∧
      k1.krnl_task = some r ∧ (aperItems k).head? = some r ∧
      k1.krnl_tarefas_aper.map Queue.size = k.krnl_tarefas_aper.map Queue.size ∧
      DispatchReady cfg k1 ∧ totalRemaining k1 < totalRemaining k := by
  obtain ⟨q, hq, hbound, hnodup, hjobs, hcan⟩ := h
  obtain ⟨t, stack, hcur, hstack, hguard⟩ := hcan
  obtain ⟨_, hget⟩ := tcbAt_eq_some hcur
  rw [aperItems_eq k q hq] at hne ⊢
  obtain ⟨r, rest, hitems⟩ := List.exists_cons_of_ne_nil hne
  rw [hitems] at hbound hnodup hjobs
  obtain ⟨hrnot, hrestnd⟩ := List.nodup_cons.mp hnodup
  obtain ⟨tj, hr, hcapj, hgj⟩ := hjobs r (by simp)
  obtain ⟨tj1, k1, h1, hid1, hcapeq, _, _, hpool, hcurrent, htask, hcase⟩ :=
    iter_nonempty cfg ctx k t stack q r rest tj hcur hstack hguard hq hitems hr
  have hrl : r < (demotedKernel ctx k t).krnl_tcb.length :=
    (List.getElem?_eq_some.mp h1).1
  have hat : k1.krnl_tcb[r]? = some (runningTcb tj1) := by
    rw [hpool]
    simp [List.getElem?_set, hrl]
  -- no pass ever writes a `pstack`
  have hpsmap : k1.krnl_tcb.map TCB.pstack = k.krnl_tcb.map TCB.pstack := by
    rw [hpool, map_set_same TCB.pstack _ r tj1 (runningTcb tj1) h1 rfl]
    exact demotedKernel_map ctx k t TCB.pstack hget rfl
  have hguards : ∀ i, GuardOk cfg k.krnl_tcb i → GuardOk cfg k1.krnl_tcb i :=
    fun i hg => guardOk_of_map_pstack cfg hpsmap i hg
  -- the other slots keep what a live job needs
  have hother : ∀ x, x ≠ r → JobOk cfg k.krnl_tcb x → JobOk cfg k1.krnl_tcb x := by
    intro x hx ⟨tx, hxg, hxc, hxguard⟩
    obtain ⟨tx1, hx1, hxid1, hxc1, _, _, _⟩ := demotedKernel_get ctx k t x tx hget hxg
    refine ⟨tx1, ?_, by rw [hxc1]; exact hxc, by rw [hxid1]; exact hguards _ hxguard⟩
    rw [hpool, List.getElem?_set_ne (fun e => hx e.symm)]
    exact hx1
  have hcapother : ∀ x, x ≠ r → capacityOf k1.krnl_tcb x = capacityOf k.krnl_tcb x := by
    intro x hx
    rw [capacityOf_eq_map, capacityOf_eq_map, hpool, List.map_set,
      demotedKernel_map ctx k t TCB.capacity hget rfl,
      List.getElem?_set_ne (fun e => hx e.symm)]
  have hcapr : capacityOf k.krnl_tcb r = tj.capacity := by simp [capacityOf, hr]
  have hcapr1 : capacityOf k1.krnl_tcb r = tj.capacity - 1 := by
    simp [capacityOf, hat, runningTcb, hcapeq]
  have hsumrest : ∀ l : List Nat, (∀ x ∈ l, x ≠ r) →
      (l.map (capacityOf k1.krnl_tcb)).sum = (l.map (capacityOf k.krnl_tcb)).sum := by
    intro l hl
    congr 1
    exact List.map_congr_left (fun x hx => hcapother x (hl x hx))
  have hrestne : ∀ x ∈ rest, x ≠ r := fun x hx e => hrnot (e ▸ hx)
  have hcan1 : CanaryOk cfg k1 := by
    show GuardOk cfg k1.krnl_tcb k1.krnl_current_task
    rw [hcurrent]
    exact hguards _ hgj
  have htotal : totalRemaining k =
      tj.capacity + (rest.map (capacityOf k.krnl_tcb)).sum := by
    simp [totalRemaining, aperItems_eq k q hq, hitems, hcapr]
  have hb2 : rest.length + 1 ≤ q.size := by simpa using hbound
  have hhead : q.items.head? = some r := by simp [hitems]
  rcases hcase with ⟨hgt, hroom, hiter, haper⟩ | ⟨_, hno, _, _⟩ | ⟨hle, hiter, haper⟩
  · refine ⟨k1, r, hiter, htask, hhead, by simp [haper, hq], ⟨_, haper, ?_, ?_, ?_, hcan1⟩, ?_⟩
    · simp
      omega
    · show (rest ++ [r]).Nodup
      rw [List.nodup_append]
      refine ⟨hrestnd, List.nodup_singleton r, ?_⟩
      intro a ha hb
      rw [List.mem_singleton] at hb
      exact hrnot (hb ▸ ha)
    · intro x hx
      show JobOk cfg k1.krnl_tcb x
      have hx2 : x ∈ rest ++ [r] := hx
      rw [List.mem_append, List.mem_singleton] at hx2
      rcases hx2 with hx2 | hx2
      · exact hother x (hrestne x hx2) (hjobs x (by simp [hx2]))
      · subst hx2
        refine ⟨runningTcb tj1, hat, ?_, ?_⟩
        · show 1 ≤ tj1.capacity - 1
          omega
        · show GuardOk cfg k1.krnl_tcb tj1.id
          rw [hid1]
          exact hguards _ hgj
    · rw [htotal]
      simp only [totalRemaining, aperItems_eq k1 _ haper, List.map_append, List.sum_append,
        List.map_cons, List.map_nil, List.sum_cons, List.sum_nil]
      rw [hsumrest rest hrestne, hcapr1]
      omega
  · omega
  · have htailsub : ∀ x ∈ rest.tail, x ∈ rest := fun x hx => List.mem_of_mem_tail hx
    refine ⟨k1, r, hiter, htask, hhead, by simp [haper, hq], ⟨_, haper, ?_, ?_, ?_, hcan1⟩, ?_⟩
    · simp
      omega
    · show rest.tail.Nodup
      exact hrestnd.sublist (List.tail_sublist rest)
    · intro x hx
      show JobOk cfg k1.krnl_tcb x
      have hx2 : x ∈ rest := htailsub x hx
      exact hother x (hrestne x hx2) (hjobs x (by simp [hx2]))
    · rw [htotal]
      simp only [totalRemaining, aperItems_eq k1 _ haper]
      rw [hsumrest rest.tail (fun x hx => hrestne x (htailsub x hx))]
      have hnn : (0 : Int) ≤ (rest.tail.map (capacityOf k.krnl_tcb)).sum := by
        have := length_le_sum_capacity cfg k.krnl_tcb rest.tail
          (fun x hx => hjobs x (by simp [htailsub x hx]))
        omega
      have hle2 : (rest.tail.map (capacityOf k.krnl_tcb)).sum ≤
          (rest.map (capacityOf k.krnl_tcb)).sum := by
        cases rest with
        | nil => simp
        | cons a l =>
          have ha := jobOk_capacityOf (hjobs a (by simp))
          simp only [List.tail_cons, List.map_cons, List.sum_cons]
          omega
      omega

theorem length_le_totalRemaining (cfg : KernelConfig) (k : Kernel) (h : DispatchReady cfg k) :
    ((aperItems k).length : Int) ≤ totalRemaining k := by
  obtain ⟨q, hq, _, _, hjobs, _⟩ := h
  unfold totalRemaining
  rw [aperItems_eq k q hq]
  exact length_le_sum_capacity cfg k.krnl_tcb q.items hjobs

/-! ### The loop, pass by pass -/

theorem run_succ_dispatched (cfg : KernelConfig) (ctx fuel : Nat) (k k1 : Kernel)
    (h : escalonadorAperiodico_iter cfg 0 ctx k = Outcome.dispatched k1) :
    escalonadorAperiodico_run cfg ctx (fuel + 1) k =
      ((k1.krnl_task.getD 0) :: (escalonadorAperiodico_run cfg ctx fuel k1).1,
        (escalonadorAperiodico_run cfg ctx fuel k1).2) := by
  simp [escalonadorAperiodico_run, h]

theorem run_succ_stop (cfg : KernelConfig) (ctx fuel : Nat) (k : Kernel) (o : Outcome)
    (h : escalonadorAperiodico_iter cfg 0 ctx k = o) (hno : ∀ k1, o ≠ Outcome.dispatched k1) :
    escalonadorAperiodico_run cfg ctx (fuel + 1) k = ([], some o) := by
  unfold escalonadorAperiodico_run
  rw [h]
  cases o with
  | dispatched k1 => exact absurd rfl (hno k1)
  | resumed k1 => rfl
  | yielded k1 => rfl
  | panicked c k1 => rfl
  | undefined => rfl

/-- With more fuel than total remaining capacity the loop makes a chain of at most
that many dispatching passes, then a pass that yields on the emptied queue. -/
theorem run_drains (cfg : KernelConfig) (ctx : Nat) (s : Nat) :
    ∀ (n : Nat) (k : Kernel), DispatchReady cfg k →
      k.krnl_tarefas_aper.map Queue.size = some s → totalRemaining k ≤ (n : Int) →
      ∀ fuel, n < fuel →
        ∃ tr kLast k1,
          escalonadorAperiodico_run cfg ctx fuel k = (tr, some (Outcome.yielded k1)) ∧
          DispatchChain cfg ctx k tr kLast ∧
          escalonadorAperiodico_iter cfg 0 ctx kLast = Outcome.yielded k1 ∧
          tr.length ≤ n ∧
          k1.krnl_tarefas_aper = some { size := s, items := [] } ∧ CanaryOk cfg k1 := by
  have hyield : ∀ (k : Kernel), DispatchReady cfg k →
      k.krnl_tarefas_aper.map Queue.size = some s → aperItems k = [] → ∀ f n,
      ∃ tr kLast k1,
        escalonadorAperiodico_run cfg ctx (f + 1) k = (tr, some (Outcome.yielded k1)) ∧
        DispatchChain cfg ctx k tr kLast ∧
        escalonadorAperiodico_iter cfg 0 ctx kLast = Outcome.yielded k1 ∧
        tr.length ≤ n ∧
        k1.krnl_tarefas_aper = some { size := s, items := [] } ∧ CanaryOk cfg k1 := by
    intro k h hsize hnil f n
    obtain ⟨q, hq, _, _, _, hcan⟩ := h
    rw [aperItems_eq k q hq] at hnil
    obtain ⟨k1, hiter, haper, hcan1⟩ := yield_pass cfg ctx k q hcan hq hnil
    have hqs : q = { size := s, items := [] } := by
      rw [hq] at hsize
      cases q with
      | mk size items =>
        simp at hsize hnil
        rw [hsize, hnil]
    refine ⟨[], k, k1, ?_, DispatchChain.done k, hiter, Nat.zero_le _, ?_, hcan1⟩
    · exact run_succ_stop cfg ctx f k _ hiter (fun _ h => by cases h)
    · rw [haper, hqs]
  intro n
  induction n with
  | zero =>
    intro k h hsize htot fuel hfuel
    obtain ⟨f, rfl⟩ : ∃ f, fuel = f + 1 := ⟨fuel - 1, by omega⟩
    have hlen := length_le_totalRemaining cfg k h
    have hnil : aperItems k = [] := by
      apply List.eq_nil_of_length_eq_zero
      have : ((aperItems k).length : Int) ≤ 0 := le_trans hlen (by simpa using htot)
      omega
    exact hyield k h hsize hnil f 0
  | succ n ih =>
    intro k h hsize htot fuel hfuel
    obtain ⟨f, rfl⟩ : ∃ f, fuel = f + 1 := ⟨fuel - 1, by omega⟩
    by_cases hnil : aperItems k = []
    · exact hyield k h hsize hnil f (n + 1)
    · obtain ⟨k1, r, hiter, htask, _, hsz, hready1, hlt⟩ := dispatch_pass cfg ctx k h hnil
      obtain ⟨tr, kLast, k2, hrun, hchain, hlast, hcount, hempty, hcan2⟩ :=
        ih k1 hready1 (by rw [hsz, hsize]) (by push_cast at htot; omega) f (by omega)
      refine ⟨r :: tr, kLast, k2, ?_, DispatchChain.pass k k1 kLast r tr hiter htask hchain,
        hlast, ?_, hempty, hcan2⟩
      · rw [run_succ_dispatched cfg ctx f k k1 hiter, hrun, htask]
        rfl
      · simp only [List.length_cons]
        omega

/-- C10, as the code has it. Take a kernel state whose aperiodic queue `q` exists
with its count within its capacity and no TCB queued twice, whose queued
references point at TCBs with capacity at least 1, and in which the guard word
of the current task and of every slot a queued job's `id` names is intact. With
no new submissions the loop of fresh passes then makes a chain of dispatching
passes, at most (sum of the queued capacities) of them, followed by a pass that
yields with the queue present and empty, and the pass after that yields again on
the same empty queue. Every dispatch from such a state leads to such a state with
strictly less total remaining capacity, and from any state with an intact canary
and a present, empty queue a pass takes the yield branch and re-establishes just
that. -/
theorem dispatcher_drains_queue (cfg : KernelConfig) (ctx : Nat) (k : Kernel) (q : Queue)
    (hq : k.krnl_tarefas_aper = some q) (hbound : q.items.length ≤ q.size)
    (hnodup : q.items.Nodup)
    (hjobs : ∀ r ∈ q.items, ∃ t, k.krnl_tcb[r]? = some t ∧ 1 ≤ t.capacity ∧
      GuardOk cfg k.krnl_tcb t.id)
    (hcan : GuardOk cfg k.krnl_tcb k.krnl_current_task) :
    (∀ fuel, (totalRemaining k).toNat < fuel →
      ∃ tr kLast k1,
        escalonadorAperiodico_run cfg ctx fuel k = (tr, some (Outcome.yielded k1)) ∧
        DispatchChain cfg ctx k tr kLast ∧
        escalonadorAperiodico_iter cfg 0 ctx kLast = Outcome.yielded k1 ∧
        (tr.length : Int) ≤ totalRemaining k ∧
        k1.krnl_tarefas_aper = some { size := q.size, items := [] } ∧
        GuardOk cfg k1.krnl_tcb k1.krnl_current_task ∧
        ∃ k2, escalonadorAperiodico_iter cfg 0 ctx k1 = Outcome.yielded k2 ∧
          k2.krnl_tarefas_aper = some { size := q.size, items := [] } ∧
          GuardOk cfg k2.krnl_tcb k2.krnl_current_task) ∧
    (q.items ≠ [] →
      ∃ k1 r, escalonadorAperiodico_iter cfg 0 ctx k = Outcome.dispatched k1 ∧
        k1.krnl_task = some r ∧ q.items.head? = some r ∧
        DispatchReady cfg k1 ∧ totalRemaining k1 < totalRemaining k) ∧
    (∀ (k2 : Kernel) (q2 : Queue), GuardOk cfg k2.krnl_tcb k2.krnl_current_task →
      k2.krnl_tarefas_aper = some q2 → q2.items = [] →
      ∃ k3, escalonadorAperiodico_iter cfg 0 ctx k2 = Outcome.yielded k3 ∧
        k3.krnl_tarefas_aper = some q2 ∧
        GuardOk cfg k3.krnl_tcb k3.krnl_current_task) := by
  have h : DispatchReady cfg k := ⟨q, hq, hbound, hnodup, hjobs, hcan⟩
  have hnn : (0 : Int) ≤ totalRemaining k := by
    have := length_le_totalRemaining cfg k h
    omega
  refine ⟨?_, ?_, ?_⟩
  · intro fuel hfuel
    obtain ⟨tr, kLast, k1, hrun, hchain, hlast, hcount, hempty, hcan1⟩ :=
      run_drains cfg ctx q.size (totalRemaining k).toNat k h (by simp [hq]) (by omega)
        fuel hfuel
    obtain ⟨k2, hiter2, haper2, hcan2⟩ :=
      yield_pass cfg ctx k1 { size := q.size, items := [] } hcan1 hempty rfl
    exact ⟨tr, kLast, k1, hrun, hchain, hlast, by omega, hempty, hcan1,
      k2, hiter2, haper2, hcan2⟩
  · intro hne
    obtain ⟨k1, r, hiter, htask, hhead, _, hready1, hlt⟩ :=
      dispatch_pass cfg ctx k h (by rw [aperItems_eq k q hq]; exact hne)
    rw [aperItems_eq k q hq] at hhead
    exact ⟨k1, r, hiter, htask, hhead, hready1, hlt⟩
  · intro k2 q2 hcan2 hq2 hitems
    exact yield_pass cfg ctx k2 q2 hcan2 hq2 hitems

/-! ### The worked pools -/

/-- C1, evaluated. From the queue A (2 jobs), B (1 job), C (3 jobs) the loop
dequeues and marks running A, B, A and then finds the queue empty: the pass that
finishes B also takes C off the queue, so C is never dispatched and keeps its
three jobs. -/
theorem abc_dispatch_sequence :
    (escalonadorAperiodico_run cfg4 7 10 kernelABC).1 = [1, 2, 1] ∧
    (escalonadorAperiodico_run cfg4 7 10 kernelABC).1.map
        (fun r => (kernelABC.krnl_tcb[r]?).map TCB.name) =
      [some [65], some [66], some [65]] ∧
    (escalonadorAperiodico_run cfg4 7 10 kernelABC).2.map Outcome.isYielded = some true ∧
    ((escalonadorAperiodico_run cfg4 7 10 kernelABC).2.bind Outcome.kernel).map
        (fun k1 => (aperItems k1, capacityOf k1.krnl_tcb 3)) = some ([], 3) := by
  decide

/-- C2, evaluated. From the queue A (1 job), B (1 job) one fresh pass finishes A
and leaves the queue empty: B, which still has its job, is gone with A. -/
theorem last_job_pass_drops_next_entry :
    aperItems kernelAB = [1, 2] ∧
    (escalonadorAperiodico_iter cfg4 0 7 kernelAB).kernel.map
        (fun k1 => (aperItems k1, capacityOf k1.krnl_tcb 2, k1.krnl_task)) =
      some ([], 1, some 1) := by
  decide

/-! ### `init_queues` and `main` -/

/-- C8. `init_queues` asks `hf_queue_create` for the run, delay, real-time and
aperiodic queues, each of capacity `MAX_TASKS`; it ends in `panic(PANIC_OOM)` if
and only if at least one of the four creations returns `NULL`, it never panics
with another code, and when none fails it returns with all four queue globals
holding the created (empty, `MAX_TASKS`-sized) queues. -/
theorem init_queues_panics_iff_create_fails (cfg : KernelConfig) (alloc : Nat → Bool)
    (k : Kernel) :
    ((∃ k1, init_queues cfg alloc k = BootOutcome.panicked PanicCode.PANIC_OOM k1) ↔
      (hf_queue_create (alloc 0) cfg.MAX_TASKS = none ∨
       hf_queue_create (alloc 1) cfg.MAX_TASKS = none ∨
       hf_queue_create (alloc 2) cfg.MAX_TASKS = none ∨
       hf_queue_create (alloc 3) cfg.MAX_TASKS = none)) ∧
    (∀ code k1, init_queues cfg alloc k = BootOutcome.panicked code k1 →
      code = PanicCode.PANIC_OOM) ∧
    ((∃ k1, init_queues cfg alloc k = BootOutcome.returned k1) ↔
      ¬ (∃ k1, init_queues cfg alloc k = BootOutcome.panicked PanicCode.PANIC_OOM k1)) ∧
    (∀ k1, init_queues cfg alloc k = BootOutcome.returned k1 →
      k1.krnl_run_queue = hf_queue_create (alloc 0) cfg.MAX_TASKS ∧
      k1.krnl_delay_queue = hf_queue_create (alloc 1) cfg.MAX_TASKS ∧
      k1.krnl_rt_queue = hf_queue_create (alloc 2) cfg.MAX_TASKS ∧
      k1.krnl_tarefas_aper = hf_queue_create (alloc 3) cfg.MAX_TASKS ∧
      k1.krnl_run_queue = some { size := cfg.MAX_TASKS, items := [] } ∧
      k1.krnl_delay_queue = some { size := cfg.MAX_TASKS, items := [] } ∧
      k1.krnl_rt_queue = some { size := cfg.MAX_TASKS, items := [] } ∧
      k1.krnl_tarefas_aper = some { size := cfg.MAX_TASKS, items := [] } ∧
      k1.krnl_tcb = k.krnl_tcb) := by
  cases h0 : alloc 0 <;> cases h1 : alloc 1 <;> cases h2 : alloc 2 <;> cases h3 : alloc 3 <;>
    simp [init_queues, hf_queue_create, h0, h1, h2, h3]

/-- C7, as the code has it. On a normal boot `main` makes exactly one `hf_spawn`
call, for `escalonadorAperiodico`, with period 10, capacity 1 and deadline 10: the
dispatcher is spawned as a periodic task and so goes to the real-time queue, not
the run queue. -/
theorem main_spawns_dispatcher_periodic :
    spawnCalls (main 0xbaadd00d) =
      [{ task := TaskEntry.escalonadorAperiodico, period := 10, capacity := 1, deadline := 10,
         name := "Aperiodic task", stack_size := 1024 }] ∧
    (spawnCalls (main 0xbaadd00d)).map hf_spawn_queue = [SpawnQueue.rt_queue] := by
  constructor <;> rfl

/-- C7, refuted as stated. The spawn call for `escalonadorAperiodico` in `main`
does not carry a zero period, capacity and deadline, and is not placed on the
run queue. -/
theorem main_spawn_not_best_effort :
    ¬ (∀ c ∈ spawnCalls (main 0xbaadd00d), c.task = TaskEntry.escalonadorAperiodico →
        c.period = 0 ∧ c.capacity = 0 ∧ c.deadline = 0 ∧
        hf_spawn_queue c = SpawnQueue.run_queue) := by
  intro h
  have hc := h
    { task := TaskEntry.escalonadorAperiodico, period := 10, capacity := 1, deadline := 10,
      name := "Aperiodic task", stack_size := 1024 }
    (by simp [spawnCalls, main]) rfl
  exact absurd hc.1 (by decide)

/-! ### The theorems at the worked pools -/

theorem clear_tcb_resets_every_slot_witness :
    kernelABC.krnl_tcb.length = cfg4.MAX_TASKS ∧ cfg4.MAX_TASKS ≤ 65535 ∧
    ∃ k1, clear_tcb cfg4 cfg4.MAX_TASKS kernelABC = some k1 ∧
      k1.krnl_tcb.length = cfg4.MAX_TASKS ∧
      ∀ i, i < cfg4.MAX_TASKS → ∃ t, k1.krnl_tcb[i]? = some t ∧ SlotCleared t :=
  ⟨by decide, by decide, clear_tcb_resets_every_slot cfg4 kernelABC (by decide) (by decide)⟩

theorem canary_mismatch_panics_before_dispatch_witness :
    tcbAt kernelSmashed.krnl_tcb kernelSmashed.krnl_current_task =
        some { dispatcherTcb cfg4 with pstack := some [0xdeadbeef, 0] } ∧
    (0xdeadbeef : Nat) ≠ cfg4.STACK_MAGIC ∧
    ∃ k1, escalonadorAperiodico_iter cfg4 0 7 kernelSmashed =
        Outcome.panicked PanicCode.PANIC_STACK_OVERFLOW k1 ∧
      k1.krnl_tarefas_aper = kernelSmashed.krnl_tarefas_aper ∧
      k1.krnl_current_task = kernelSmashed.krnl_current_task ∧
      k1.krnl_tcb.map TCB.state = kernelSmashed.krnl_tcb.map TCB.state ∧
      k1.krnl_tcb.map TCB.capacity = kernelSmashed.krnl_tcb.map TCB.capacity ∧
      k1.krnl_tcb.map TCB.id = kernelSmashed.krnl_tcb.map TCB.id :=
  ⟨by decide, by decide,
    canary_mismatch_panics_before_dispatch cfg4 7 kernelSmashed
      { dispatcherTcb cfg4 with pstack := some [0xdeadbeef, 0] } [0xdeadbeef, 0] 0xdeadbeef
      (by decide) rfl rfl (by decide)⟩

theorem head_with_jobs_left_is_requeued_witness :
    kernelABC.krnl_tarefas_aper = some { size := 4, items := [1, 2, 3] } ∧
    kernelABC.krnl_tcb[1]? = some (mkJob cfg4 1 65 2) ∧
    ∃ k1, escalonadorAperiodico_iter cfg4 0 7 kernelABC = Outcome.dispatched k1 ∧
      k1.krnl_tarefas_aper = some { size := 4, items := [2, 3] ++ [1] } ∧
      hf_queue_count { size := 4, items := [2, 3] ++ [1] } =
        hf_queue_count { size := 4, items := [1, 2, 3] } ∧
      k1.krnl_tcb.map TCB.capacity = (kernelABC.krnl_tcb.map TCB.capacity).set 1 (2 - 1) ∧
      (∃ t1, k1.krnl_tcb[1]? = some t1 ∧ t1.capacity = 2 - 1 ∧
        t1.state = TaskState.TASK_RUNNING) :=
  ⟨rfl, rfl,
    head_with_jobs_left_is_requeued cfg4 7 kernelABC (dispatcherTcb cfg4) [cfg4.STACK_MAGIC, 0]
      { size := 4, items := [1, 2, 3] } 1 [2, 3] (mkJob cfg4 1 65 2) 2
      (by decide) rfl rfl rfl (by decide) rfl rfl rfl (by decide)⟩

theorem exactly_one_running_after_dispatch_witness :
    (kernelABC.krnl_tcb.map TCB.state =
      [TaskState.TASK_RUNNING, TaskState.TASK_READY, TaskState.TASK_READY,
        TaskState.TASK_READY]) ∧
    ∃ k1,
      (escalonadorAperiodico_iter cfg4 0 7 kernelABC = Outcome.dispatched k1 ∨
        escalonadorAperiodico_iter cfg4 0 7 kernelABC =
          Outcome.panicked PanicCode.PANIC_CANT_PLACE_RUN k1) ∧
      ((3 : Nat) ≤ 4 → escalonadorAperiodico_iter cfg4 0 7 kernelABC = Outcome.dispatched k1) ∧
      (∀ (i : Nat) (ti : TCB), k1.krnl_tcb[i]? = some ti →
        (ti.state = TaskState.TASK_RUNNING ↔ i = 1)) ∧
      (∃ tr, k1.krnl_tcb[1]? = some tr ∧ tr.state = TaskState.TASK_RUNNING ∧
        k1.krnl_current_task = tr.id) ∧
      k1.krnl_current_task = ((1 : Nat) : Int) ∧ k1.krnl_task = some 1 :=
  ⟨by decide,
    exactly_one_running_after_dispatch cfg4 7 kernelABC (dispatcherTcb cfg4)
      [cfg4.STACK_MAGIC, 0] { size := 4, items := [1, 2, 3] } 1 [2, 3]
      (by decide) rfl rfl
      (by
        intro i ti hi hs
        have hlt : i < 4 := (List.getElem?_eq_some.mp hi).1
        interval_cases i
        · rfl
        · cases hi; cases hs
        · cases hi; cases hs
        · cases hi; cases hs)
      rfl rfl
      (by
        intro x hx
        have hx2 : x = 1 ∨ x = 2 ∨ x = 3 := by simpa using hx
        rcases hx2 with rfl | rfl | rfl
        · exact ⟨mkJob cfg4 1 65 2, rfl, rfl⟩
        · exact ⟨mkJob cfg4 2 66 1, rfl, rfl⟩
        · exact ⟨mkJob cfg4 3 67 3, rfl, rfl⟩)⟩

theorem pass_never_fails_to_requeue_witness :
    hf_queue_count { size := 4, items := [1, 2, 3] } ≤ 4 ∧
    (∀ k1, escalonadorAperiodico_iter cfg4 0 7 kernelABC ≠
        Outcome.panicked PanicCode.PANIC_CANT_PLACE_RUN k1) ∧
    (∀ k1 q1, (escalonadorAperiodico_iter cfg4 0 7 kernelABC).kernel = some k1 →
        k1.krnl_tarefas_aper = some q1 →
        hf_queue_count q1 ≤ hf_queue_count { size := 4, items := [1, 2, 3] } ∧ q1.size = 4) :=
  ⟨by decide,
    pass_never_fails_to_requeue cfg4 0 7 kernelABC { size := 4, items := [1, 2, 3] } rfl
      (by decide)⟩

/-- C10, refuted as stated. Capacities of at least 1 are not enough. In
`kernelJobSmashed` every queued job has capacity at least 1, yet the loop
dispatches A, then halts in `panic(PANIC_STACK_OVERFLOW)` on A's overwritten guard
word with B, C, A still queued, and for no amount of fuel does it end in a yield.
In `kernelDup`, where A is queued twice, the first two passes both dispatch and
the second one does not lower the total remaining capacity. -/
theorem drain_fails_on_smashed_guard_or_duplicate :
    ((∀ r ∈ aperItems kernelJobSmashed, 1 ≤ capacityOf kernelJobSmashed.krnl_tcb r) ∧
      (escalonadorAperiodico_run cfg4 7 10 kernelJobSmashed).1 = [1] ∧
      (escalonadorAperiodico_run cfg4 7 10 kernelJobSmashed).2.bind Outcome.panicCode =
        some PanicCode.PANIC_STACK_OVERFLOW ∧
      ((escalonadorAperiodico_run cfg4 7 10 kernelJobSmashed).2.bind Outcome.kernel).map
        aperItems = some [2, 3, 1] ∧
      ∀ fuel k1, (escalonadorAperiodico_run cfg4 7 fuel kernelJobSmashed).2 ≠
        some (Outcome.yielded k1)) ∧
    ((∀ r ∈ aperItems kernelDup, 1 ≤ capacityOf kernelDup.krnl_tcb r) ∧
      escalonadorAperiodico_iter cfg4 0 7 kernelDup =
        Outcome.dispatched (passFrom cfg4 7 kernelDup) ∧
      escalonadorAperiodico_iter cfg4 0 7 (passFrom cfg4 7 kernelDup) =
        Outcome.dispatched (passFrom cfg4 7 (passFrom cfg4 7 kernelDup)) ∧
      ¬ totalRemaining (passFrom cfg4 7 (passFrom cfg4 7 kernelDup)) <
        totalRemaining (passFrom cfg4 7 kernelDup)) := by
  have h1 : escalonadorAperiodico_iter cfg4 0 7 kernelJobSmashed =
      Outcome.dispatched (passFrom cfg4 7 kernelJobSmashed) := by decide
  have h2 : escalonadorAperiodico_iter cfg4 0 7 (passFrom cfg4 7 kernelJobSmashed) =
      Outcome.panicked PanicCode.PANIC_STACK_OVERFLOW
        (passFrom cfg4 7 (passFrom cfg4 7 kernelJobSmashed)) := by decide
  refine ⟨⟨by decide, by decide, by decide, by decide, ?_⟩, by decide, by decide, by decide,
    by decide⟩
  intro fuel k1
  match fuel with
  | 0 => simp [escalonadorAperiodico_run]
  | 1 =>
    rw [run_succ_dispatched cfg4 7 0 _ _ h1]
    simp [escalonadorAperiodico_run]
  | f + 2 =>
    rw [run_succ_dispatched cfg4 7 (f + 1) _ _ h1,
      run_succ_stop cfg4 7 f _ _ h2 (fun _ h => by cases h)]
    intro h
    cases h

/-- The theorem of C10 at the pool with jobs A (2), B (1), C (3): the hypotheses
hold there, the total is 6, and with fuel 7 the loop yields on the empty queue. -/
theorem dispatcher_drains_queue_witness :
    kernelABC.krnl_tarefas_aper = some { size := 4, items := [1, 2, 3] } ∧
    totalRemaining kernelABC = 6 ∧
    ∃ tr kLast k1,
      escalonadorAperiodico_run cfg4 7 7 kernelABC = (tr, some (Outcome.yielded k1)) ∧
      DispatchChain cfg4 7 kernelABC tr kLast ∧
      escalonadorAperiodico_iter cfg4 0 7 kLast = Outcome.yielded k1 ∧
      (tr.length : Int) ≤ totalRemaining kernelABC ∧
      k1.krnl_tarefas_aper = some { size := 4, items := [] } ∧
      GuardOk cfg4 k1.krnl_tcb k1.krnl_current_task ∧
      ∃ k2, escalonadorAperiodico_iter cfg4 0 7 k1 = Outcome.yielded k2 ∧
        k2.krnl_tarefas_aper = some { size := 4, items := [] } ∧
        GuardOk cfg4 k2.krnl_tcb k2.krnl_current_task :=
  ⟨rfl, by decide,
    (dispatcher_drains_queue cfg4 7 kernelABC { size := 4, items := [1, 2, 3] } rfl
      (by decide) (by decide)
      (by
        intro x hx
        have hx2 : x = 1 ∨ x = 2 ∨ x = 3 := by simpa using hx
        rcases hx2 with rfl | rfl | rfl
        · exact ⟨mkJob cfg4 1 65 2, rfl, by decide,
            mkJob cfg4 1 65 2, [cfg4.STACK_MAGIC, 0], by decide, rfl, rfl⟩
        · exact ⟨mkJob cfg4 2 66 1, rfl, by decide,
            mkJob cfg4 2 66 1, [cfg4.STACK_MAGIC, 0], by decide, rfl, rfl⟩
        · exact ⟨mkJob cfg4 3 67 3, rfl, by decide,
            mkJob cfg4 3 67 3, [cfg4.STACK_MAGIC, 0], by decide, rfl, rfl⟩)
      ⟨dispatcherTcb cfg4, [cfg4.STACK_MAGIC, 0], by decide, rfl, rfl⟩).1 7 (by decide)⟩

end Hellfire
